import Mathlib

/-!
Verification of the emilator core (src/emilator.py): the virtual register
file with sub-register aliasing and extension semantics, the memory
abstraction, and the recursive LLIL expression evaluator.

Python integers are modelled as `Int` (unbounded, signed).  Python's
bitwise operators on ints are infinite two's complement, which is exactly
the semantics of `Int.land` / `Int.lor` / `Int.xor`; `x << n` (for a
non-negative shift count `n`) is exactly `x * 2 ^ n`, and `x >> n` is
arithmetic shift, i.e. `Int.shiftRight`.  Stateful methods of the
`Emilator` class become functions `EmuState → EmuState × Except EmuError α`:
the state component records the side effects performed before a `return`
or a `raise` (Python exceptions do not roll anything back).
-/

namespace Emilator

/-- The implicit-extension policy of a sub-register (`binaryninja`
enum `ImplicitRegisterExtend`, an external collaborator of the core). -/
inductive ImplicitRegisterExtend where
  | NoExtend
  | ZeroExtendToFullWidth
  | SignExtendToFullWidth
  deriving DecidableEq

/-- A register descriptor as supplied by the architecture collaborator:
byte size, byte offset inside the full-width parent, the parent's name,
and the extension policy (spec section 3). -/
structure RegInfo where
  size : Nat
  offset : Nat
  full_width_reg : String
  extend : ImplicitRegisterExtend
  deriving DecidableEq

/-- The architecture collaborator: the register descriptor table
(`arch.regs`, `none` models a `KeyError` on lookup), the stack-pointer
register name, the address size and the byte order. -/
structure Arch where
  regs : String → Option RegInfo
  stack_pointer : String
  address_size : Nat
  little_endian : Bool

/-- Modelled from the spec: `LLIL_REG_IS_TEMP` of the external
`binaryninja` module — temporary registers are integer indices carrying
an out-of-band marker bit distinguishing them from architectural ones. -/
def LLIL_REG_IS_TEMP (n : Nat) : Bool :=
  n &&& 0x80000000 ≠ 0

/-- A register argument as accepted by `set_register_value` /
`get_register_value`: a plain integer index, an `ILRegister` object
(index plus name), or a register name. -/
inductive Register where
  | index (n : Nat)
  | ilreg (n : Nat) (nm : String)
  | name (s : String)
  deriving DecidableEq

/-- The error taxonomy (spec section 7).  The `errors` module is not part
of src, so the classes are modelled from the spec; `InvalidWidthError`
stands for the width-check failures that the source raises as the Python
builtins `ValueError` (in `read_memory`) and `KeyError` (in
`write_memory`).  `KeyError` here models a failed architecture-table
lookup, `ValueErr` a Python `ValueError` from a negative shift count,
`StructError` a `struct.pack` range failure, `AttributeError` the access
`None.low_level_il` after a failed resolution, and `StopIteration` the
halt raised by `visit_LLIL_RET`. -/
inductive EmuError where
  | UndefinedError
  | MemoryAccessError
  | InvalidWidthError
  | UnimplementedError
  | KeyError
  | ValueErr
  | StructError
  | AttributeError
  | StopIteration
  deriving DecidableEq

/-- A Python value produced by the expression evaluator: an int or a
bool (comparisons and `visit_LLIL_CALL` return bools, everything else
ints). -/
inductive PyVal where
  | int (i : Int)
  | bool (b : Bool)
  deriving DecidableEq

instance {ε α : Type} [DecidableEq ε] [DecidableEq α] : DecidableEq (Except ε α) := fun x y =>
  match x, y with
  | .error a, .error b =>
    if h : a = b then .isTrue (by rw [h]) else .isFalse fun hh => h (Except.error.inj hh)
  | .error _, .ok _ => .isFalse fun hh => Except.noConfusion hh
  | .ok _, .error _ => .isFalse fun hh => Except.noConfusion hh
  | .ok a, .ok b =>
    if h : a = b then .isTrue (by rw [h]) else .isFalse fun hh => h (Except.ok.inj hh)

/-- Numeric coercion of a Python value (`True` counts as 1, `False`
as 0), as applied by Python arithmetic and by dict/struct operations. -/
def PyVal.toInt : PyVal → Int
  | .int i => i
  | .bool b => if b then 1 else 0

/-- Python truthiness, as used by `visit_LLIL_IF`. -/
def PyVal.truthy : PyVal → Bool
  | .int i => i ≠ 0
  | .bool b => b

/-- Modelled from the spec: a segment of the `memory` module (not in
src) — base address, length, permission flags and a zero-filled byte
buffer, modelled as a function from offset to byte. -/
structure Segment where
  start : Nat
  length : Nat
  flags : Nat
  data : Nat → Nat

/-- Modelled from the spec: the sparse memory image of the `memory`
module — independently mapped, non-overlapping segments over an address
space of `address_size` bytes. -/
structure Memory where
  address_size : Nat
  segments : List Segment

/-- Modelled from the spec: containment query of the memory image —
true iff some segment covers the address. -/
def Memory.mem_contains (m : Memory) (addr : Int) : Bool :=
  m.segments.any fun seg =>
    decide ((seg.start : Int) ≤ addr ∧ addr < (seg.start : Int) + (seg.length : Int))

/-- Modelled from the spec: raw read of `len` bytes at `addr` from the
memory image; fails (`none`) if the address is not covered by a segment
or the read would cross the segment boundary. -/
def Memory.mem_read (m : Memory) (addr : Int) (len : Nat) : Option (List Nat) :=
  m.segments.findSome? fun seg =>
    if (seg.start : Int) ≤ addr ∧ addr < (seg.start : Int) + (seg.length : Int) then
      if addr + (len : Int) ≤ (seg.start : Int) + (seg.length : Int) then
        some ((List.range len).map fun i => seg.data ((addr - (seg.start : Int)).toNat + i))
      else none
    else none

/-- Modelled from the spec: write helper walking the segment list; the
segment covering `addr` gets its buffer updated, failing on a boundary
crossing. -/
def Memory.write_segs (addr : Int) (bytes : List Nat) : List Segment → Option (List Segment)
  | [] => none
  | seg :: rest =>
    if (seg.start : Int) ≤ addr ∧ addr < (seg.start : Int) + (seg.length : Int) then
      if addr + (bytes.length : Int) ≤ (seg.start : Int) + (seg.length : Int) then
        let newdata : Nat → Nat := fun off =>
          if addr ≤ (seg.start : Int) + (off : Int) ∧
              (seg.start : Int) + (off : Int) < addr + (bytes.length : Int) then
            bytes.getD ((seg.start : Int) + (off : Int) - addr).toNat 0
          else seg.data off
        some ({ seg with data := newdata } :: rest)
      else none
    else (Memory.write_segs addr bytes rest).map fun segs => seg :: segs

/-- Modelled from the spec: raw write of a byte list at `addr`. -/
def Memory.mem_write (m : Memory) (addr : Int) (bytes : List Nat) : Option Memory :=
  (Memory.write_segs addr bytes m.segments).map fun segs => { m with segments := segs }

/-- Little-endian byte list of `v` truncated to `len` bytes
(`struct.pack` with format `<B/<H/<L/<Q`). -/
def le_bytes (v : Nat) (len : Nat) : List Nat :=
  (List.range len).map fun i => v / 256 ^ i % 256

/-- Value of a little-endian byte list (`struct.unpack`). -/
def le_value (bs : List Nat) : Nat :=
  bs.foldr (fun b acc => acc * 256 + b) 0

/-- Value of a big-endian byte list. -/
def be_value (bs : List Nat) : Nat :=
  bs.foldl (fun acc b => acc * 256 + b) 0

/-- The LLIL expression tree: one constructor per `visit_LLIL_*` handler
of the source (the `llilvisitor` dispatch becomes pattern matching).
`size` is the node's declared operand width in bytes. -/
inductive LLILExpr where
  | setReg (size : Nat) (dest : Register) (src : LLILExpr)
  | const (size : Nat) (c : Int)
  | constPtr (size : Nat) (c : Int)
  | reg (size : Nat) (src : Register)
  | load (size : Nat) (src : LLILExpr)
  | store (size : Nat) (dest : LLILExpr) (src : LLILExpr)
  | push (size : Nat) (src : LLILExpr)
  | pop (size : Nat)
  | goto (dest : Int)
  | ifExpr (condition : LLILExpr) (t : Int) (f : Int)
  | cmpNE (size : Nat) (left : LLILExpr) (right : LLILExpr)
  | cmpE (size : Nat) (left : LLILExpr) (right : LLILExpr)
  | cmpSLT (size : Nat) (left : LLILExpr) (right : LLILExpr)
  | cmpUGT (size : Nat) (left : LLILExpr) (right : LLILExpr)
  | add (size : Nat) (left : LLILExpr) (right : LLILExpr)
  | and (size : Nat) (left : LLILExpr) (right : LLILExpr)
  | or (size : Nat) (left : LLILExpr) (right : LLILExpr)
  | sub (size : Nat) (left : LLILExpr) (right : LLILExpr)
  | xor (size : Nat) (left : LLILExpr) (right : LLILExpr)
  | lsl (size : Nat) (left : LLILExpr) (right : LLILExpr)
  | lsr (size : Nat) (left : LLILExpr) (right : LLILExpr)
  | sx (size : Nat) (src : LLILExpr)
  | zx (size : Nat) (src : LLILExpr)
  | setFlag (dest : Nat) (src : LLILExpr)
  | flag (src : Nat)
  | ret
  | call (dest : LLILExpr)
  deriving DecidableEq

/-- The interpreter state: the fields of the `Emilator` object.  The
Python dict `self._regs` is keyed by either a register name (string) or
a temporary-register index (int); the two disjoint key types are split
into `regs_named` and `regs_temp`.  `view_functions` models
`view.get_function_at`, `view_resolve` the stream the collaborator
produces after `create_user_function` + `update_analysis_and_wait`, and
`view_log` records every resolution request sent to the collaborator
(the `BinaryView` is an external component, modelled from the spec). -/
structure EmuState where
  regs_named : String → Option Int
  regs_temp : Nat → Option Int
  flags : Nat → Option PyVal
  mem : Memory
  function : List LLILExpr
  instr_index : Int
  view_functions : Int → Option (List LLILExpr)
  view_resolve : Int → Option (List LLILExpr)
  view_log : List Int

/-- The hook registry `self._function_hooks`: a map from call-target
address to a handler that receives the interpreter (modelled as a state
transformer).  It is carried as a separate evaluator parameter so that
the state type stays first-order. -/
def Hooks : Type :=
  Int → Option (EmuState → EmuState)

/-- `set_register_value` for a register name (source lines 105-150):
descriptor lookup, normalization of negative values, the full-width
fast path, the `UndefinedError` guard for partial writes, and the three
extension policies.  `Int.xor`/`Int.land`/`Int.lor` are Python's
bitwise operators on ints; `x << k` is written `x * 2 ^ k`. -/
def set_register_value_named (arch : Arch) (register : String) (value : Int)
    (s : EmuState) : EmuState × Except EmuError Int :=
  match arch.regs register with
  | none => (s, .error .KeyError)
  | some reg_info =>
    -- normalize value to be unsigned
    let value := if value < 0 then value + 2 ^ (reg_info.size * 8) else value
    if register = reg_info.full_width_reg then
      ({ s with regs_named := fun m => if m = register then some value else s.regs_named m },
       .ok value)
    else
      match arch.regs reg_info.full_width_reg with
      | none => (s, .error .KeyError)
      | some full_width_reg_info =>
        let full_width_reg_value := s.regs_named full_width_reg_info.full_width_reg
        if full_width_reg_value = none ∧
            (reg_info.extend = .NoExtend ∨ reg_info.offset ≠ 0) then
          (s, .error .UndefinedError)
        else
          let new_value : Int :=
            match reg_info.extend with
            | .ZeroExtendToFullWidth => value
            | .SignExtendToFullWidth =>
              Int.xor value ((2 : Int) ^ (reg_info.size * 8) - 1) -
                ((2 : Int) ^ (reg_info.size * 8) - 1) +
                (2 : Int) ^ (full_width_reg_info.size * 8)
            | .NoExtend =>
              -- mask off the value that will be replaced
              let mask : Int := (2 : Int) ^ (reg_info.size * 8) - 1
              let full_mask : Int := (2 : Int) ^ (full_width_reg_info.size * 8) - 1
              let reg_bits : Int := mask * 2 ^ (reg_info.offset * 8)
              -- the guard above ensures the parent value is present here;
              -- `getD 0` is never exercised with `none`
              Int.lor
                (Int.land (full_width_reg_value.getD 0) (Int.xor full_mask reg_bits))
                (value * 2 ^ (reg_info.offset * 8))
          let newregs : String → Option Int := fun m =>
            if m = full_width_reg_info.full_width_reg then some new_value else s.regs_named m
          ({ s with regs_named := newregs }, .ok new_value)

/-- `set_register_value` (source lines 90-150): temporary registers are
stored verbatim under their index; an `ILRegister` falls back to its
name when not temporary; a non-temporary plain integer index reaches
`arch.regs[register]` with an int key and fails the table lookup. -/
def set_register_value (arch : Arch) (register : Register) (value : Int)
    (s : EmuState) : EmuState × Except EmuError Int :=
  match register with
  | .index n =>
    if LLIL_REG_IS_TEMP n then
      ({ s with regs_temp := fun m => if m = n then some value else s.regs_temp m },
       .ok value)
    else (s, .error .KeyError)
  | .ilreg n nm =>
    if ¬ LLIL_REG_IS_TEMP n then
      set_register_value_named arch nm value s
    else
      ({ s with regs_temp := fun m => if m = n then some value else s.regs_temp m },
       .ok value)
  | .name nm => set_register_value_named arch nm value s

/-- `get_register_value` for a register name (source lines 179-200):
fetch the parent's full-width value, mask a full-width read to its
width, or extract the sub-register's bit field and shift it into
place. -/
def get_register_value_named (arch : Arch) (register : String)
    (s : EmuState) : EmuState × Except EmuError Int :=
  match arch.regs register with
  | none => (s, .error .KeyError)
  | some reg_info =>
    match s.regs_named reg_info.full_width_reg with
    | none => (s, .error .UndefinedError)
    | some full_reg_value =>
      let mask : Int := (2 : Int) ^ (reg_info.size * 8) - 1
      if register = reg_info.full_width_reg then
        (s, .ok (Int.land full_reg_value mask))
      else
        let reg_bits : Int := mask * 2 ^ (reg_info.offset * 8)
        (s, .ok (Int.shiftRight (Int.land full_reg_value reg_bits) (reg_info.offset * 8)))

/-- `get_register_value` (source lines 152-200): temporary registers
are read from their own store, failing with `UndefinedError` when never
set; the architectural path is `get_register_value_named`. -/
def get_register_value (arch : Arch) (register : Register)
    (s : EmuState) : EmuState × Except EmuError Int :=
  match register with
  | .index n =>
    if LLIL_REG_IS_TEMP n then
      match s.regs_temp n with
      | none => (s, .error .UndefinedError)
      | some v => (s, .ok v)
    else (s, .error .KeyError)
  | .ilreg n nm =>
    if ¬ LLIL_REG_IS_TEMP n then
      get_register_value_named arch nm s
    else
      match s.regs_temp n with
      | none => (s, .error .UndefinedError)
      | some v => (s, .ok v)
  | .name nm => get_register_value_named arch nm s

/-- `set_flag_value` (source lines 202-204). -/
def set_flag_value (flag : Nat) (value : PyVal) (s : EmuState) :
    EmuState × Except EmuError PyVal :=
  ({ s with flags := fun m => if m = flag then some value else s.flags m }, .ok value)

/-- `get_flag_value` (source lines 206-209): an unset flag reads as
`False`. -/
def get_flag_value (flag : Nat) (s : EmuState) : EmuState × Except EmuError PyVal :=
  (s, .ok ((s.flags flag).getD (.bool false)))

/-- `read_memory` (source lines 211-234): the width check (`ValueError`
in the source, `InvalidWidthError` in the spec's taxonomy) precedes the
containment check; the raw bytes are decoded per the architecture's
byte order; any failure of the raw read surfaces as
`MemoryAccessError` via the `try/except`. -/
def read_memory (arch : Arch) (addr : Int) (length : Nat) (s : EmuState) :
    EmuState × Except EmuError Int :=
  if length ∉ [1, 2, 4, 8] then (s, .error .InvalidWidthError)
  else if ¬ s.mem.mem_contains addr then (s, .error .MemoryAccessError)
  else
    match s.mem.mem_read addr length with
    | none => (s, .error .MemoryAccessError)
    | some bs => (s, .ok (if arch.little_endian then le_value bs else be_value bs))

/-- The `data` argument of `write_memory`: an int to be packed, or a
byte string written as-is. -/
inductive WriteData where
  | int (i : Int)
  | bytes (b : List Nat)

/-- `write_memory` (source lines 236-258): the containment check comes
first; only integer data is width-checked (`KeyError` in the source,
`InvalidWidthError` in the spec's taxonomy) and packed (out-of-range
ints fail in `struct.pack`); byte data ignores `length` entirely. -/
def write_memory (arch : Arch) (addr : Int) (data : WriteData) (length : Option Nat)
    (s : EmuState) : EmuState × Except EmuError Bool :=
  if ¬ s.mem.mem_contains addr then (s, .error .MemoryAccessError)
  else
    match data with
    | .int i =>
      match length with
      | none => (s, .error .InvalidWidthError)
      | some l =>
        if l ∈ [1, 2, 4, 8] then
          if 0 ≤ i ∧ i < 2 ^ (l * 8) then
            let bs := if arch.little_endian then le_bytes i.toNat l
              else (le_bytes i.toNat l).reverse
            match s.mem.mem_write addr bs with
            | none => (s, .error .MemoryAccessError)
            | some m2 => ({ s with mem := m2 }, .ok true)
          else (s, .error .StructError)
        else (s, .error .InvalidWidthError)
    | .bytes bs =>
      match s.mem.mem_write addr bs with
      | none => (s, .error .MemoryAccessError)
      | some m2 => ({ s with mem := m2 }, .ok true)

/-- Sequencing of stateful steps: a raised exception propagates,
keeping the side effects already performed (Python has no rollback). -/
def andThen {α β : Type} (r : EmuState × Except EmuError α)
    (f : α → EmuState → EmuState × Except EmuError β) :
    EmuState × Except EmuError β :=
  match r with
  | (s, .ok a) => f a s
  | (s, .error e) => (s, .error e)

/-- Result adapter for handlers that return an int. -/
def mapInt (r : EmuState × Except EmuError Int) : EmuState × Except EmuError PyVal :=
  match r with
  | (s, .ok v) => (s, .ok (.int v))
  | (s, .error e) => (s, .error e)

/-- The expression evaluator / dispatcher: one case per `visit_LLIL_*`
handler of the source (lines 300-471), in source order.  Arithmetic and
comparison handlers coerce their operands with `PyVal.toInt` (Python
arithmetic treats `True`/`False` as 1/0); a negative shift count raises
`ValueError` in Python.  `visit_LLIL_CALL` consults the hook registry
first and only falls back to the collaborator (`view_*` fields, with
the request recorded in `view_log`) when no hook is registered. -/
def visit (arch : Arch) (hooks : Hooks) : LLILExpr → EmuState → EmuState × Except EmuError PyVal
  | .setReg _ dest src, s =>
    andThen (visit arch hooks src s) fun value s1 =>
      andThen (mapInt (set_register_value arch dest value.toInt s1)) fun _ s2 =>
        (s2, .ok (.bool true))
  | .const _ c, s => (s, .ok (.int c))
  | .constPtr _ c, s => (s, .ok (.int c))
  | .reg _ src, s => mapInt (get_register_value arch src s)
  | .load size src, s =>
    andThen (visit arch hooks src s) fun a s1 =>
      mapInt (read_memory arch a.toInt size s1)
  | .store size dest src, s =>
    andThen (visit arch hooks dest s) fun a s1 =>
      andThen (visit arch hooks src s1) fun value s2 =>
        andThen (write_memory arch a.toInt (.int value.toInt) (some size) s2)
          fun _ s3 => (s3, .ok (.bool true))
  | .push size src, s =>
    andThen (visit arch hooks src s) fun value s1 =>
      andThen (get_register_value arch (.name arch.stack_pointer) s1) fun sp_value s2 =>
        andThen (write_memory arch sp_value (.int value.toInt) (some size) s2)
          fun _ s3 =>
            mapInt (set_register_value arch (.name arch.stack_pointer) (sp_value - size) s3)
  | .pop size, s =>
    andThen (get_register_value arch (.name arch.stack_pointer) s) fun sp_value s1 =>
      let sp_value := sp_value + size
      andThen (read_memory arch sp_value size s1) fun value s2 =>
        andThen (set_register_value arch (.name arch.stack_pointer) sp_value s2) fun _ s3 =>
          (s3, .ok (.int value))
  | .goto dest, s => ({ s with instr_index := dest }, .ok (.int dest))
  | .ifExpr condition t f, s =>
    andThen (visit arch hooks condition s) fun c s1 =>
      if c.truthy then ({ s1 with instr_index := t }, .ok c)
      else ({ s1 with instr_index := f }, .ok c)
  | .cmpNE _ left right, s =>
    andThen (visit arch hooks left s) fun a s1 =>
      andThen (visit arch hooks right s1) fun b s2 =>
        (s2, .ok (.bool (a.toInt ≠ b.toInt)))
  | .cmpE _ left right, s =>
    andThen (visit arch hooks left s) fun a s1 =>
      andThen (visit arch hooks right s1) fun b s2 =>
        (s2, .ok (.bool (a.toInt = b.toInt)))
  | .cmpSLT size left right, s =>
    andThen (visit arch hooks left s) fun a s1 =>
      andThen (visit arch hooks right s1) fun b s2 =>
        let l := if Int.land a.toInt (2 ^ (size * 8 - 1)) ≠ 0
          then a.toInt - 2 ^ (size * 8) else a.toInt
        let r := if Int.land b.toInt (2 ^ (size * 8 - 1)) ≠ 0
          then b.toInt - 2 ^ (size * 8) else b.toInt
        (s2, .ok (.bool (l < r)))
  | .cmpUGT _ left right, s =>
    andThen (visit arch hooks left s) fun a s1 =>
      andThen (visit arch hooks right s1) fun b s2 =>
        (s2, .ok (.bool (a.toInt > b.toInt)))
  | .add size left right, s =>
    andThen (visit arch hooks left s) fun a s1 =>
      andThen (visit arch hooks right s1) fun b s2 =>
        (s2, .ok (.int (Int.land (a.toInt + b.toInt) ((2 : Int) ^ (size * 8) - 1))))
  | .and _ left right, s =>
    andThen (visit arch hooks left s) fun a s1 =>
      andThen (visit arch hooks right s1) fun b s2 =>
        (s2, .ok (.int (Int.land a.toInt b.toInt)))
  | .or _ left right, s =>
    andThen (visit arch hooks left s) fun a s1 =>
      andThen (visit arch hooks right s1) fun b s2 =>
        (s2, .ok (.int (Int.lor a.toInt b.toInt)))
  | .sub _ left right, s =>
    andThen (visit arch hooks left s) fun a s1 =>
      andThen (visit arch hooks right s1) fun b s2 =>
        (s2, .ok (.int (a.toInt - b.toInt)))
  | .xor _ left right, s =>
    andThen (visit arch hooks left s) fun a s1 =>
      andThen (visit arch hooks right s1) fun b s2 =>
        (s2, .ok (.int (Int.xor a.toInt b.toInt)))
  | .lsl size left right, s =>
    andThen (visit arch hooks left s) fun a s1 =>
      andThen (visit arch hooks right s1) fun b s2 =>
        if b.toInt < 0 then (s2, .error .ValueErr)
        else
          (s2, .ok (.int (Int.land (a.toInt * 2 ^ b.toInt.toNat)
            ((2 : Int) ^ (size * 8) - 1))))
  | .lsr _ left right, s =>
    andThen (visit arch hooks left s) fun a s1 =>
      andThen (visit arch hooks right s1) fun b s2 =>
        if b.toInt < 0 then (s2, .error .ValueErr)
        else (s2, .ok (.int (Int.shiftRight a.toInt b.toInt.toNat)))
  | .sx size src, s =>
    andThen (visit arch hooks src s) fun orig s1 =>
      let sign_bit : Int := 2 ^ (size * 8 - 1)
      (s1, .ok (.int (Int.land orig.toInt (sign_bit - 1) - Int.land orig.toInt sign_bit)))
  | .zx _ src, s => visit arch hooks src s
  | .setFlag dest src, s =>
    andThen (visit arch hooks src s) fun value s1 =>
      set_flag_value dest value s1
  | .flag src, s => get_flag_value src s
  | .ret, s => (s, .error .StopIteration)
  | .call dest, s =>
    andThen (visit arch hooks dest s) fun t s1 =>
      let target := t.toInt
      match hooks target with
      | some h => (h s1, .ok (.bool true))
      | none =>
        -- consult the collaborator: get_function_at, then
        -- create_user_function + update_analysis_and_wait on a miss
        let s2 := { s1 with view_log := s1.view_log ++ [target] }
        match s2.view_functions target with
        | some f => ({ s2 with function := f, instr_index := 0 }, .ok (.bool true))
        | none =>
          match s2.view_resolve target with
          | some f => ({ s2 with function := f, instr_index := 0 }, .ok (.bool true))
          | none => (s2, .error .AttributeError)

/-! ### Test architecture and initial state (spec section 8) -/

/-- Name of the 8-byte full-width register of the test family. -/
def R64 : String := "R64"

/-- Name of the 4-byte, offset-0, zero-extending alias. -/
def R32 : String := "R32"

/-- Name of the 2-byte, offset-0, non-extending alias. -/
def R16 : String := "R16"

/-- Name of the 1-byte, offset-0, non-extending alias. -/
def R8 : String := "R8"

/-- Name of the 1-byte, offset-0, sign-extending alias. -/
def R8S : String := "R8S"

/-- Name of the 1-byte, offset-1, non-extending alias. -/
def R8H : String := "R8H"

/-- Name of the stack-pointer register. -/
def SPN : String := "SP"

/-- The register family of spec section 8: full-width `R64` with the
aliases `R32`/`R16`/`R8`/`R8S`/`R8H`, plus a full-width stack
pointer. -/
def testArch : Arch where
  regs := fun r =>
    if r = R64 then some ⟨8, 0, R64, .NoExtend⟩
    else if r = R32 then some ⟨4, 0, R64, .ZeroExtendToFullWidth⟩
    else if r = R16 then some ⟨2, 0, R64, .NoExtend⟩
    else if r = R8 then some ⟨1, 0, R64, .NoExtend⟩
    else if r = R8S then some ⟨1, 0, R64, .SignExtendToFullWidth⟩
    else if r = R8H then some ⟨1, 1, R64, .NoExtend⟩
    else if r = SPN then some ⟨8, 0, SPN, .NoExtend⟩
    else none
  stack_pointer := SPN
  address_size := 8
  little_endian := true

/-- A freshly constructed interpreter: empty register file, flag store
and memory, no analyzed functions, index 0. -/
def initState : EmuState :=
  ⟨fun _ => none, fun _ => none, fun _ => none, ⟨8, []⟩, [], 0,
   fun _ => none, fun _ => none, []⟩

/-- An empty hook registry. -/
def noHooks : Hooks := fun _ => none

/-! ### Arithmetic helper lemmas -/

/-- Python's `x & (2^k - 1)` equals `x mod 2^k` for non-negative `x`. -/
theorem int_land_two_pow_sub_one (x : Int) (k : Nat) (hx : 0 ≤ x) :
    Int.land x ((2 : Int) ^ k - 1) = x % 2 ^ k := by
  obtain ⟨n, rfl⟩ := Int.eq_ofNat_of_zero_le hx
  have h2 : ((2 : Int) ^ k - 1) = ((2 ^ k - 1 : Nat) : Int) := by
    rw [Nat.cast_sub Nat.one_le_two_pow]
    push_cast
    ring
  rw [h2]
  have h3 : Int.land (n : Int) ((2 ^ k - 1 : Nat) : Int)
      = ((n &&& (2 ^ k - 1) : Nat) : Int) := rfl
  rw [h3, Nat.and_pow_two_sub_one_eq_mod]
  push_cast
  rfl

/-- Bitwise conjunction of casts of naturals computes in `Nat`. -/
theorem int_land_cast (a b : Nat) :
    Int.land (a : Int) (b : Int) = ((a &&& b : Nat) : Int) := rfl

/-- Bitwise disjunction of casts of naturals computes in `Nat`. -/
theorem int_lor_cast (a b : Nat) :
    Int.lor (a : Int) (b : Int) = ((a ||| b : Nat) : Int) := rfl

/-- Bitwise exclusive-or of casts of naturals computes in `Nat`. -/
theorem int_xor_cast (a b : Nat) :
    Int.xor (a : Int) (b : Int) = ((a ^^^ b : Nat) : Int) := rfl

/-- Right shift of a cast of a natural computes in `Nat`. -/
theorem int_shiftRight_cast (a s : Nat) :
    Int.shiftRight (a : Int) s = ((a >>> s : Nat) : Int) := rfl

/-- The shifted width mask `(2^S - 1) * 2^off` over `Int` is the cast
of the `Nat`-level `(2^S - 1) <<< off`. -/
theorem int_mask_cast (S off : Nat) :
    ((2 : Int) ^ S - (1 : Int)) * (2 : Int) ^ off =
      (((2 ^ S - 1) <<< off : Nat) : Int) := by
  rw [Nat.shiftLeft_eq]
  push_cast [Nat.one_le_two_pow]
  ring

/-- The width mask `2^k - 1` over `Int` is the cast of the `Nat`-level
one. -/
theorem int_pow_sub_one_cast (k : Nat) :
    (2 : Int) ^ k - (1 : Int) = ((2 ^ k - 1 : Nat) : Int) := by
  push_cast [Nat.one_le_two_pow]
  ring

/-- A left shift of a cast of a natural, written as multiplication by a
power of two, computes in `Nat`. -/
theorem int_mul_pow_cast (a k : Nat) :
    (a : Int) * (2 : Int) ^ k = ((a <<< k : Nat) : Int) := by
  rw [Nat.shiftLeft_eq]
  push_cast
  ring

/-- Masking with a shifted width mask and shifting back extracts the
bit field: `(n &&& ((2^S - 1) <<< off)) >>> off = n / 2^off % 2^S`. -/
theorem nat_field_extract (n S off : Nat) :
    (n &&& ((2 ^ S - 1) <<< off)) >>> off = n / 2 ^ off % 2 ^ S := by
  have h : (n &&& ((2 ^ S - 1) <<< off)) >>> off = (n >>> off) &&& (2 ^ S - 1) := by
    apply Nat.eq_of_testBit_eq
    intro i
    simp [Nat.testBit_shiftRight, Nat.testBit_and, Nat.testBit_shiftLeft,
      Nat.testBit_two_pow_sub_one, Nat.add_sub_cancel_left, Nat.le_add_right,
      Bool.and_comm]
  rw [h, Nat.and_pow_two_sub_one_eq_mod, Nat.shiftRight_eq_div_pow]

/-! ### Claims -/

/-- Claim C10: `get_register_value` is a pure read — it returns the
input state unchanged on every path, whether it yields a value or an
error. -/
theorem c10_get_register_value_pure (arch : Arch) (register : Register) (s : EmuState) :
    (get_register_value arch register s).1 = s := by
  have hn : ∀ nm : String, (get_register_value_named arch nm s).1 = s := by
    intro nm
    simp only [get_register_value_named]
    rcases arch.regs nm with _ | ri
    · rfl
    · simp only
      rcases s.regs_named ri.full_width_reg with _ | v
      · rfl
      · simp only
        split <;> rfl
  cases register with
  | index n =>
    simp only [get_register_value]
    split
    · split <;> rfl
    · rfl
  | ilreg n nm =>
    simp only [get_register_value]
    split
    · exact hn nm
    · split <;> rfl
  | name nm => exact hn nm

/-- Claim C1 (code bug): writing `0xFF` through the sign-extending
1-byte alias stores `2^64 - 0xFF = 0xFFFFFFFFFFFFFF01`, not the
sign-extension `0xFFFFFFFFFFFFFFFF`: the source's formula
`(value ^ mask) - mask + 2^64` computes `2^64 - value`, a
two's-complement negation, while the module's own `sign_extend` helper
and `visit_LLIL_SX` use the correct `(v & (sign_bit-1)) - (v & sign_bit)`
formula. -/
theorem c1_sign_extend_write_is_negation :
    (set_register_value testArch (.name R8S) 0xFF initState).2 = .ok 0xFFFFFFFFFFFFFF01 ∧
    (get_register_value testArch (.name R64)
      (set_register_value testArch (.name R8S) 0xFF initState).1).2 =
        .ok 0xFFFFFFFFFFFFFF01 ∧
    (0xFFFFFFFFFFFFFF01 : Int) ≠ 0xFFFFFFFFFFFFFFFF := by
  decide

/-- Claim C3, counterexample: for the full-width register `R64` and the
negative value `-(2^64) - 1`, the code stores `-1` (it adds `2^64` only
once), which is not the unsigned residue `2^64 - 1`. -/
theorem c3_counterexample :
    (set_register_value testArch (.name R64) (-(2 ^ 64) - 1) initState).2 = .ok (-1) ∧
    (set_register_value testArch (.name R64) (-(2 ^ 64) - 1) initState).1.regs_named R64 =
      some (-1) ∧
    (-(2 ^ 64) - 1 : Int) % 2 ^ 64 = 2 ^ 64 - 1 ∧ ((-1 : Int) ≠ 2 ^ 64 - 1) := by
  decide

/-- Claim C3 (amended): for an architectural full-width register and a
negative value `v`, the stored and returned result is `v + 2^(size*8)`,
which equals the unsigned residue `v mod 2^(size*8)` exactly when
`v ≥ -2^(size*8)`. -/
theorem c3_negative_write_normalization (arch : Arch) (r : String) (ri : RegInfo)
    (v : Int) (s : EmuState)
    (hr : arch.regs r = some ri) (hfull : ri.full_width_reg = r)
    (hneg : v < 0) (hge : -(2 ^ (ri.size * 8)) ≤ v) :
    (set_register_value arch (.name r) v s).2 = .ok (v % 2 ^ (ri.size * 8)) ∧
    (set_register_value arch (.name r) v s).1.regs_named r = some (v % 2 ^ (ri.size * 8)) := by
  have hpos : (0 : Int) < 2 ^ (ri.size * 8) := by positivity
  have hmod : v + 2 ^ (ri.size * 8) = v % 2 ^ (ri.size * 8) := by
    have h1 : (v + 2 ^ (ri.size * 8)) % 2 ^ (ri.size * 8) = v % 2 ^ (ri.size * 8) := by
      have h2 := Int.add_mul_emod_self_left v (2 ^ (ri.size * 8)) 1
      rwa [mul_one] at h2
    rw [← h1]
    exact (Int.emod_eq_of_lt (by linarith) (by linarith)).symm
  simp only [set_register_value, set_register_value_named, hr, hfull, if_pos hneg,
    if_pos rfl, hmod]
  exact ⟨rfl, by simp⟩

/-- Claim C4: a write through a sub-register fails with
`UndefinedError` exactly when the parent's full-width value is unset
and the policy is `NoExtend` or the offset is non-zero; in every other
case the write succeeds. -/
theorem c4_subregister_write_undefined_iff (arch : Arch) (r p : String)
    (ri fwi : RegInfo) (v : Int) (s : EmuState)
    (hr : arch.regs r = some ri) (hfull : ri.full_width_reg = p) (hne : r ≠ p)
    (hp : arch.regs p = some fwi) (hpfull : fwi.full_width_reg = p) :
    ((set_register_value arch (.name r) v s).2 = .error .UndefinedError ↔
      s.regs_named p = none ∧ (ri.extend = .NoExtend ∨ ri.offset ≠ 0)) ∧
    (¬ (s.regs_named p = none ∧ (ri.extend = .NoExtend ∨ ri.offset ≠ 0)) →
      ∃ w, (set_register_value arch (.name r) v s).2 = .ok w) := by
  simp only [set_register_value, set_register_value_named, hr, hfull, hp, hpfull,
    if_neg hne]
  by_cases hc : s.regs_named p = none ∧ (ri.extend = .NoExtend ∨ ri.offset ≠ 0)
  · simp [hc]
  · simp only [if_neg hc]
    refine ⟨by simp [hc], fun _ => ⟨_, rfl⟩⟩

/-- Claim C4, witness: a write through the zero-extending, offset-0
alias `R32` succeeds even though the parent `R64` was never set. -/
theorem c4_witness :
    ∃ w, (set_register_value testArch (.name R32) 0xAABBCCDD initState).2 = .ok w :=
  (c4_subregister_write_undefined_iff testArch R32 R64
      ⟨4, 0, R64, .ZeroExtendToFullWidth⟩ ⟨8, 0, R64, .NoExtend⟩ 0xAABBCCDD initState
      (by decide) rfl (by decide) (by decide) rfl).2 (by decide)

/-- Claim C3, witness: writing `-1` to the full-width `R64` stores the
residue `(-1) mod 2^64`. -/
theorem c3_witness :
    (set_register_value testArch (.name R64) (-1) initState).2 = .ok ((-1) % 2 ^ (8 * 8)) :=
  (c3_negative_write_normalization testArch R64 ⟨8, 0, R64, .NoExtend⟩ (-1) initState
    (by decide) rfl (by decide) (by decide)).1

/-- Claim C2: evaluating Add and logical-shift-left masks the result to
the node's declared width (`(l + r) mod 2^(size*8)` resp.
`(l << r) mod 2^(size*8)`), while Subtract, And, Or and Xor return the
raw unmasked combination of the evaluated operands — Subtract in
particular goes negative when the right operand exceeds the left. -/
theorem c2_masking_discipline (arch : Arch) (hooks : Hooks) (size : Nat)
    (e1 e2 : LLILExpr) (s s1 s2 : EmuState) (l r : Int)
    (h1 : visit arch hooks e1 s = (s1, .ok (.int l)))
    (h2 : visit arch hooks e2 s1 = (s2, .ok (.int r)))
    (hl : 0 ≤ l) (hr : 0 ≤ r) :
    visit arch hooks (.add size e1 e2) s = (s2, .ok (.int ((l + r) % 2 ^ (size * 8)))) ∧
    visit arch hooks (.lsl size e1 e2) s =
      (s2, .ok (.int (l * 2 ^ r.toNat % 2 ^ (size * 8)))) ∧
    visit arch hooks (.sub size e1 e2) s = (s2, .ok (.int (l - r))) ∧
    visit arch hooks (.and size e1 e2) s = (s2, .ok (.int (Int.land l r))) ∧
    visit arch hooks (.or size e1 e2) s = (s2, .ok (.int (Int.lor l r))) ∧
    visit arch hooks (.xor size e1 e2) s = (s2, .ok (.int (Int.xor l r))) ∧
    (l < r → l - r < 0) := by
  refine ⟨?_, ?_, ?_, ?_, ?_, ?_, fun h => by omega⟩ <;>
    simp only [visit, h1, andThen, h2, PyVal.toInt]
  · rw [int_land_two_pow_sub_one _ _ (by omega)]
  · rw [if_neg (by omega),
      int_land_two_pow_sub_one _ _ (mul_nonneg hl (by positivity))]

/-- Claim C2, witness: `Add(1, 1, 2)` yields `3 mod 256` and
`Sub(1, 1, 2)` the raw negative `-1`. -/
theorem c2_witness :
    visit testArch noHooks (.add 1 (.const 1 1) (.const 1 2)) initState =
      (initState, .ok (.int ((1 + 2) % 2 ^ (1 * 8)))) ∧
    visit testArch noHooks (.sub 1 (.const 1 1) (.const 1 2)) initState =
      (initState, .ok (.int (1 - 2))) := by
  have h := c2_masking_discipline testArch noHooks 1 (.const 1 1) (.const 1 2)
    initState initState initState 1 2 rfl rfl (by decide) (by decide)
  exact ⟨h.1, h.2.2.1⟩

/-- Claim C7: reading a sub-register extracts the bit field
`[offset*8, offset*8 + size*8)` of the parent's stored full-width
value, shifted into place — arithmetically
`(v / 2^(offset*8)) mod 2^(size*8)`. -/
theorem c7_subregister_read_slice (arch : Arch) (r : String) (ri : RegInfo)
    (v : Int) (s : EmuState)
    (hr : arch.regs r = some ri) (hne : r ≠ ri.full_width_reg)
    (hv : s.regs_named ri.full_width_reg = some v) (hv0 : 0 ≤ v) :
    (get_register_value arch (.name r) s).2 =
      .ok (v / 2 ^ (ri.offset * 8) % 2 ^ (ri.size * 8)) := by
  obtain ⟨n, rfl⟩ := Int.eq_ofNat_of_zero_le hv0
  simp only [get_register_value, get_register_value_named, hr, hv, if_neg hne]
  rw [int_mask_cast, int_land_cast, int_shiftRight_cast, nat_field_extract]
  push_cast
  rfl

/-- The parent value used by the C7 witness. -/
def c7_state : EmuState :=
  (set_register_value testArch (.name R64) 0x1122334455667788 initState).1

/-- Claim C7, witness: after `R64 = 0x1122334455667788`, reading `R32`
yields `0x55667788`, `R16` yields `0x7788`, `R8` yields `0x88`. -/
theorem c7_witness :
    (get_register_value testArch (.name R32) c7_state).2 = .ok 0x55667788 ∧
    (get_register_value testArch (.name R16) c7_state).2 = .ok 0x7788 ∧
    (get_register_value testArch (.name R8) c7_state).2 = .ok 0x88 := by
  refine ⟨?_, by decide, by decide⟩
  have h := c7_subregister_read_slice testArch R32 ⟨4, 0, R64, .ZeroExtendToFullWidth⟩
    0x1122334455667788 c7_state (by decide) (by decide) (by decide) (by decide)
  rw [h]
  decide

/-- Claim C8, counterexample: a `write_memory` with the unsupported
length 3 at an unmapped address fails with `MemoryAccessError`, not the
width error — the containment check precedes the width check. -/
theorem c8_counterexample :
    (write_memory testArch 0x9999 (.int 0) (some 3) initState).2 =
      .error .MemoryAccessError ∧
    (write_memory testArch 0x9999 (.int 0) (some 3) initState).2 ≠
      .error .InvalidWidthError := by
  decide

/-- Claim C8 (amended): `read_memory` with a length outside
`{1, 2, 4, 8}` fails with the width error for every address (its width
check comes first), and `write_memory` with integer data and such a
length fails with the width error whenever the address is mapped; at an
unmapped address `MemoryAccessError` is raised instead. -/
theorem c8_invalid_width (arch : Arch) :
    (∀ (addr : Int) (len : Nat) (s : EmuState), len ∉ [1, 2, 4, 8] →
      (read_memory arch addr len s).2 = .error .InvalidWidthError) ∧
    (∀ (addr : Int) (len : Nat) (i : Int) (s : EmuState), len ∉ [1, 2, 4, 8] →
      s.mem.mem_contains addr = true →
      (write_memory arch addr (.int i) (some len) s).2 = .error .InvalidWidthError) := by
  constructor
  · intro addr len s h
    simp only [read_memory]
    rw [if_pos h]
  · intro addr len i s h hc
    simp only [write_memory, hc]
    rw [if_neg (by simp), if_neg h]

/-- Claim C8, witness: reading 3 bytes fails with the width error even
at an address that is not mapped at all. -/
theorem c8_witness :
    (read_memory testArch 0x1000 3 initState).2 = .error .InvalidWidthError :=
  (c8_invalid_width testArch).1 0x1000 3 initState (by decide)

/-- Claim C9: a Call whose evaluated target has a registered hook
applies the hook to the interpreter state exactly once and returns
`True`; the handler itself performs no collaborator interaction and no
change to the active stream or instruction index (the final state is
exactly the hook's output). -/
theorem c9_call_hook_dispatch (arch : Arch) (hooks : Hooks) (e : LLILExpr)
    (s s1 : EmuState) (t : PyVal) (h : EmuState → EmuState)
    (he : visit arch hooks e s = (s1, .ok t))
    (hh : hooks t.toInt = some h) :
    visit arch hooks (.call e) s = (h s1, .ok (.bool true)) := by
  simp only [visit, he, andThen, hh]

/-- The recording hook used by the C9 witness: it marks flag 0 and
touches nothing else. -/
def c9_hook : EmuState → EmuState := fun st =>
  { st with flags := fun m => if m = 0 then some (.bool true) else st.flags m }

/-- The hook registry of the C9 witness: only address `0x4000` is
hooked. -/
def c9_hooks : Hooks := fun a => if a = 0x4000 then some c9_hook else none

/-- Claim C9, witness: evaluating `Call(Const(0x4000))` with a hook at
`0x4000` applies the hook once, returns `True`, sends nothing to the
collaborator and leaves the stream and index unchanged. -/
theorem c9_witness :
    visit testArch c9_hooks (.call (.const 8 0x4000)) initState =
      (c9_hook initState, .ok (.bool true)) ∧
    (c9_hook initState).view_log = initState.view_log ∧
    (c9_hook initState).function = initState.function ∧
    (c9_hook initState).instr_index = initState.instr_index :=
  ⟨c9_call_hook_dispatch testArch c9_hooks (.const 8 0x4000) initState initState
      (.int 0x4000) c9_hook rfl rfl, rfl, rfl, rfl⟩

/-- The C5 scenario: memory mapped over `[0x1000, 0x3000)`, readable
and writable, zero-filled. -/
def c5_mapped : EmuState :=
  { initState with mem := ⟨8, [⟨0x1000, 0x2000, 3, fun _ => 0⟩]⟩ }

/-- The C5 scenario after setting the stack pointer to `0x2000`. -/
def c5_start : EmuState :=
  (set_register_value testArch (.name SPN) 0x2000 c5_mapped).1

/-- The C5 scenario after evaluating `Push(8, 0xDEADBEEF)`. -/
def c5_push : EmuState × Except EmuError PyVal :=
  visit testArch noHooks (.push 8 (.const 8 0xDEADBEEF)) c5_start

/-- The C5 scenario after additionally evaluating `Pop(8)`. -/
def c5_pop : EmuState × Except EmuError PyVal :=
  visit testArch noHooks (.pop 8) c5_push.1

/-- Claim C5: with `SP = 0x2000` and memory covering `[0x1000, 0x3000)`,
`Push(8, 0xDEADBEEF)` then `Pop(8)` returns `0xDEADBEEF` and restores
`SP` to `0x2000` (the push wrote at the pre-decrement address `0x2000`
and left `SP = 0x1FF8`). -/
theorem c5_push_pop_round_trip :
    c5_pop.2 = .ok (.int 0xDEADBEEF) ∧
    (get_register_value testArch (.name SPN) c5_pop.1).2 = .ok 0x2000 ∧
    (get_register_value testArch (.name SPN) c5_push.1).2 = .ok 0x1FF8 := by
  decide

/-- Inserting a field: `(no &&& ((2^F - 1) ^^^ ((2^S - 1) <<< off))) |||
(nv <<< off)` has exactly the bits of `nv` inside the field
`[off, off + S)` and the bits of `no` elsewhere, provided both values
fit and the field fits inside the `F`-bit parent. -/
theorem nat_field_insert (no nv S F off : Nat)
    (hnv : nv < 2 ^ S) (hno : no < 2 ^ F) (hfit : off + S ≤ F) :
    ∀ i : Nat,
      ((no &&& ((2 ^ F - 1) ^^^ ((2 ^ S - 1) <<< off))) ||| (nv <<< off)).testBit i =
        if off ≤ i ∧ i < off + S then nv.testBit (i - off) else no.testBit i := by
  intro i
  simp only [Nat.testBit_or, Nat.testBit_and, Nat.testBit_xor, Nat.testBit_shiftLeft,
    Nat.testBit_two_pow_sub_one, ge_iff_le]
  by_cases h1 : off ≤ i
  · by_cases h2 : i < off + S
    · have hiF : i < F := by omega
      have hiS : i - off < S := by omega
      simp [h1, h2, hiF, hiS]
    · have hnb : nv.testBit (i - off) = false :=
        Nat.testBit_lt_two_pow
          (lt_of_lt_of_le hnv (Nat.pow_le_pow_right (by norm_num) (by omega)))
      by_cases hiF : i < F
      · simp [h1, h2, hiF, hnb]
        omega
      · have hnob : no.testBit i = false :=
          Nat.testBit_lt_two_pow
            (lt_of_lt_of_le hno (Nat.pow_le_pow_right (by norm_num) (by omega)))
        simp [h1, h2, hiF, hnb, hnob]
  · have hiF : i < F := by omega
    simp [h1, hiF]

/-- Claim C6: a NoExtend write through a sub-register replaces exactly
the bits `[offset*8, offset*8 + size*8)` of the parent's stored value
with the written value and preserves every other bit. -/
theorem c6_noextend_write_bits (arch : Arch) (r p : String) (ri fwi : RegInfo)
    (v old : Int) (s : EmuState)
    (hr : arch.regs r = some ri) (hfull : ri.full_width_reg = p) (hne : r ≠ p)
    (hp : arch.regs p = some fwi) (hpfull : fwi.full_width_reg = p)
    (hext : ri.extend = .NoExtend)
    (hold : s.regs_named p = some old)
    (hv0 : 0 ≤ v) (hvlt : v < 2 ^ (ri.size * 8))
    (hold0 : 0 ≤ old) (holdlt : old < 2 ^ (fwi.size * 8))
    (hfit : ri.offset + ri.size ≤ fwi.size) :
    ∃ w : Int,
      (set_register_value arch (.name r) v s).2 = .ok w ∧
      (set_register_value arch (.name r) v s).1.regs_named p = some w ∧
      ∀ i : Nat,
        w.toNat.testBit i =
          if ri.offset * 8 ≤ i ∧ i < ri.offset * 8 + ri.size * 8 then
            v.toNat.testBit (i - ri.offset * 8)
          else old.toNat.testBit i := by
  obtain ⟨nv, rfl⟩ := Int.eq_ofNat_of_zero_le hv0
  obtain ⟨no, rfl⟩ := Int.eq_ofNat_of_zero_le hold0
  have hvlt2 : nv < 2 ^ (ri.size * 8) := by exact_mod_cast hvlt
  have holdlt2 : no < 2 ^ (fwi.size * 8) := by exact_mod_cast holdlt
  have hnneg : ¬ ((nv : Int) < 0) := not_lt.mpr (by positivity)
  simp only [set_register_value, set_register_value_named, hr, hfull, hp, hpfull, hext,
    if_neg hne, if_neg hnneg, hold, Option.getD_some]
  rw [if_neg (by simp)]
  rw [int_mask_cast, int_pow_sub_one_cast, int_xor_cast, int_land_cast,
    int_mul_pow_cast, int_lor_cast]
  refine ⟨_, rfl, by simp, ?_⟩
  intro i
  simp only [Int.toNat_natCast]
  exact nat_field_insert no nv (ri.size * 8) (fwi.size * 8) (ri.offset * 8)
    hvlt2 holdlt2 (by omega) i

/-- The C6 witness's parent state: `R64 = 0xFFFFFFFFFFFFFFFF`. -/
def c6_state : EmuState :=
  (set_register_value testArch (.name R64) 0xFFFFFFFFFFFFFFFF initState).1

/-- Claim C6, witness: with `R64 = 0xFFFFFFFFFFFFFFFF`, setting the
2-byte offset-0 NoExtend alias `R16` to 0 makes `get(R64)` return
`0xFFFFFFFFFFFF0000`. -/
theorem c6_witness :
    (∃ w : Int,
      (set_register_value testArch (.name R16) 0 c6_state).2 = .ok w ∧
      (set_register_value testArch (.name R16) 0 c6_state).1.regs_named R64 = some w ∧
      ∀ i : Nat,
        w.toNat.testBit i =
          if 0 * 8 ≤ i ∧ i < 0 * 8 + 2 * 8 then (0 : Int).toNat.testBit (i - 0 * 8)
          else (0xFFFFFFFFFFFFFFFF : Int).toNat.testBit i) ∧
    (get_register_value testArch (.name R64)
      (set_register_value testArch (.name R16) 0 c6_state).1).2 =
        .ok 0xFFFFFFFFFFFF0000 := by
  refine ⟨?_, by decide⟩
  exact c6_noextend_write_bits testArch R16 R64 ⟨2, 0, R64, .NoExtend⟩
    ⟨8, 0, R64, .NoExtend⟩ 0 0xFFFFFFFFFFFFFFFF c6_state (by decide) rfl (by decide)
    (by decide) rfl rfl (by decide) (by decide) (by decide) (by decide) (by decide)
    (by decide)

end Emilator
